import Mathlib

/-!
Shallow embedding of the model-graph construction and shape/dimension
resolution engine of this repository (`pymc3/distributions/distribution.py`
and `pymc3/model.py`), together with theorems settling the frozen claims
about it.

Conventions of the embedding:
* Python strings are embedded as `List Char` (`PyStr`).
* The dynamically typed arguments of `_validate_shape_dims_size` are
  embedded as a small universe `PyVal` of the Python runtime values that
  can reach that function; elements of shape/dims/size sequences are the
  universe `PyItem`.
* Python exceptions become `Except` errors; `warnings.warn` calls become
  entries appended to an explicit warning list.
* Aesara tensor variables are modelled by the data the claims need:
  a random variable is its name together with the list of its symbolic
  element slots (all random variables reaching the registration machinery
  in the claims are one-dimensional, so an element list suffices).
-/

abbrev PyStr := List Char

/-- Reserved dimension name `draw` (see `Model.add_coord`). -/
def strDraw : PyStr := ['d', 'r', 'a', 'w']

/-- Reserved dimension name `chain` (see `Model.add_coord`). -/
def strChain : PyStr := ['c', 'h', 'a', 'i', 'n']

/-- Reserved dimension name `__sample__` (see `Model.add_coord`). -/
def strSample : PyStr := ['_', '_', 's', 'a', 'm', 'p', 'l', 'e', '_', '_']

/-- Suffix `_missing` used by `Model.make_obs_var` for the free sub-RV of a
partially observed variable. -/
def sufMissing : PyStr := ['_', 'm', 'i', 's', 's', 'i', 'n', 'g']

/-- Suffix `_observed` used by `Model.make_obs_var` for the observed sub-RV
of a partially observed variable. -/
def sufObserved : PyStr := ['_', 'o', 'b', 's', 'e', 'r', 'v', 'e', 'd']

/-- Elements that can occur inside a Python sequence passed as `shape`,
`dims` or `size`: integers, strings, `None`, `Ellipsis`, or symbolic
Aesara `Variable`s (identified by a tag).  Python `==` on Aesara variables
is identity, so `DecidableEq` on the tag is a faithful model of the
membership tests `Ellipsis in items` / `i == Ellipsis` in the source. -/
inductive PyItem where
  | int (n : Int)
  | str (s : PyStr)
  | noneItem
  | ellipsis
  | avar (id : Nat)
deriving DecidableEq, Repr

/-- Python runtime values that can be passed for the `shape`, `dims` and
`size` arguments of `_validate_shape_dims_size`.  `pylist`/`pytuple`
distinguish the two sequence types the source accepts; `other` stands for
every value of any type outside the accepted ones. -/
inductive PyVal where
  | none
  | int (n : Int)
  | str (s : PyStr)
  | avar (id : Nat)
  | pylist (items : List PyItem)
  | pytuple (items : List PyItem)
  | other
deriving DecidableEq, Repr

/-- Embedding of `isinstance(shape, (type(None), int, list, tuple, Variable))`. -/
def isShapeTyped : PyVal → Bool
  | .none | .int _ | .pylist _ | .pytuple _ | .avar _ => true
  | _ => false

/-- Embedding of `isinstance(dims, (type(None), str, list, tuple))`. -/
def isDimsTyped : PyVal → Bool
  | .none | .str _ | .pylist _ | .pytuple _ => true
  | _ => false

/-- Embedding of `isinstance(size, (type(None), int, list, tuple, Variable))`. -/
def isSizeTyped : PyVal → Bool := isShapeTyped

/-- Composite of the two normalization steps of `_validate_shape_dims_size`
for `shape` and `size`: a bare int becomes a one-tuple and a list becomes a
tuple; `None`, tuples and `Variable`s are unchanged. -/
def normShapeSize : PyVal → PyVal
  | .int n => .pytuple [.int n]
  | .pylist its => .pytuple its
  | v => v

/-- Composite of the two normalization steps of `_validate_shape_dims_size`
for `dims`: a bare string becomes a one-tuple and a list becomes a tuple. -/
def normDims : PyVal → PyVal
  | .str s => .pytuple [.str s]
  | .pylist its => .pytuple its
  | v => v

/-- Embedding of `_valid_ellipsis_position` from
`pymc3/distributions/distribution.py`: for a sequence containing an
`Ellipsis`, every position except the last must be `Ellipsis`-free.
`None` and `Variable` values pass the guard unchanged.  (The source only
calls this after normalization, so the argument is `None`, a tuple, or a
`Variable`; the non-sequence catch-all mirrors the guard returning `True`.) -/
def valid_ellipsis_position (items : PyVal) : Bool :=
  match items with
  | .pylist its | .pytuple its =>
      if its.contains .ellipsis then ! (its.dropLast.contains .ellipsis) else true
  | _ => true

/-- Embedding of `Ellipsis in size` for the final check of
`_validate_shape_dims_size`.  After normalization `size` is `None`, a tuple
or a `Variable`; symbolic `Variable`s are treated as `Ellipsis`-free. -/
def sizeContainsEllipsis : PyVal → Bool
  | .pylist its | .pytuple its => its.contains .ellipsis
  | _ => false

/-- Error cases raised by `_validate_shape_dims_size` (each constructor is
one `raise ValueError` site of the source, in source order). -/
inductive ShapeArgErr where
  | bothShapeDims
  | bothDimsSize
  | bothShapeSize
  | shapeBadType
  | dimsBadType
  | sizeBadType
  | shapeEllipsisPos
  | dimsEllipsisPos
  | sizeHasEllipsis
deriving DecidableEq, Repr

/-- Final step of `_validate_shape_dims_size`: the `Ellipsis` placement
checks and the returned triple.  The arguments are the already-normalized
`shape`, `dims` and `size`. -/
def validateEllipsisStep (shape dims size : PyVal) :
    Except ShapeArgErr (PyVal × PyVal × PyVal) :=
  if ¬ valid_ellipsis_position shape then .error .shapeEllipsisPos
  else if ¬ valid_ellipsis_position dims then .error .dimsEllipsisPos
  else if sizeContainsEllipsis size then .error .sizeHasEllipsis
  else .ok (shape, dims, size)

/-- Embedding of `_validate_shape_dims_size` from
`pymc3/distributions/distribution.py`: exclusivity checks, type checks,
normalization to tuples, then the `Ellipsis` placement checks. -/
def validate_shape_dims_size (shape dims size : PyVal) :
    Except ShapeArgErr (PyVal × PyVal × PyVal) :=
  if shape ≠ .none ∧ dims ≠ .none then .error .bothShapeDims
  else if dims ≠ .none ∧ size ≠ .none then .error .bothDimsSize
  else if shape ≠ .none ∧ size ≠ .none then .error .bothShapeSize
  else if ¬ isShapeTyped shape then .error .shapeBadType
  else if ¬ isDimsTyped dims then .error .dimsBadType
  else if ¬ isSizeTyped size then .error .sizeBadType
  else validateEllipsisStep (normShapeSize shape) (normDims dims) (normShapeSize size)

/-- Abbreviation for the three mutual-exclusivity errors of
`validate_shape_dims_size`. -/
def isExclusivityErr : ShapeArgErr → Prop
  | .bothShapeDims | .bothDimsSize | .bothShapeSize => True
  | _ => False

instance (e : ShapeArgErr) : Decidable (isExclusivityErr e) := by
  cases e <;> simp only [isExclusivityErr] <;> infer_instance

/-- C2: for every call of the resolver in which at least two of `shape`,
`dims`, `size` are non-null, the result is one of the three exclusivity
errors; with at most one non-null argument, whatever error may be raised is
never an exclusivity error. -/
theorem C2_shape_dims_size_exclusivity (shape dims size : PyVal) :
    (((shape ≠ .none ∧ dims ≠ .none) ∨ (dims ≠ .none ∧ size ≠ .none) ∨
        (shape ≠ .none ∧ size ≠ .none)) →
      ∃ e, validate_shape_dims_size shape dims size = .error e ∧ isExclusivityErr e) ∧
    (¬ ((shape ≠ .none ∧ dims ≠ .none) ∨ (dims ≠ .none ∧ size ≠ .none) ∨
        (shape ≠ .none ∧ size ≠ .none)) →
      ∀ e, validate_shape_dims_size shape dims size = .error e → ¬ isExclusivityErr e) := by
  constructor
  · intro h
    unfold validate_shape_dims_size
    rcases h with h | h | h
    · exact ⟨.bothShapeDims, by rw [if_pos h]; exact ⟨rfl, trivial⟩⟩
    · by_cases hsd : shape ≠ .none ∧ dims ≠ .none
      · exact ⟨.bothShapeDims, by rw [if_pos hsd]; exact ⟨rfl, trivial⟩⟩
      · exact ⟨.bothDimsSize, by rw [if_neg hsd, if_pos h]; exact ⟨rfl, trivial⟩⟩
    · by_cases hsd : shape ≠ .none ∧ dims ≠ .none
      · exact ⟨.bothShapeDims, by rw [if_pos hsd]; exact ⟨rfl, trivial⟩⟩
      · by_cases hds : dims ≠ .none ∧ size ≠ .none
        · exact ⟨.bothDimsSize, by rw [if_neg hsd, if_pos hds]; exact ⟨rfl, trivial⟩⟩
        · exact ⟨.bothShapeSize, by rw [if_neg hsd, if_neg hds, if_pos h]; exact ⟨rfl, trivial⟩⟩
  · intro h e he
    unfold validate_shape_dims_size at he
    rw [if_neg (fun hx => h (Or.inl hx)), if_neg (fun hx => h (Or.inr (Or.inl hx))),
      if_neg (fun hx => h (Or.inr (Or.inr hx)))] at he
    unfold validateEllipsisStep at he
    split_ifs at he <;> (injection he with he) <;> subst he <;> simp [isExclusivityErr]

/-- C2 witness: at the concrete input `shape=(2,)`, `dims=("draw",)`,
`size=None` the resolver raises an exclusivity error, and at
`shape=(2,)`, `dims=None`, `size=None` it never raises one. -/
theorem C2_shape_dims_size_exclusivity_witness :
    (∃ e, validate_shape_dims_size (.pytuple [.int 2]) (.pytuple [.str strDraw]) .none =
        .error e ∧ isExclusivityErr e) ∧
    (∀ e, validate_shape_dims_size (.pytuple [.int 2]) .none .none = .error e →
        ¬ isExclusivityErr e) :=
  ⟨(C2_shape_dims_size_exclusivity _ _ _).1 (Or.inl (by decide)),
   (C2_shape_dims_size_exclusivity _ _ _).2 (by decide)⟩

/-- Helper: an element of a list with the last entry removed is an element
of the list. -/
theorem contains_of_dropLast_contains {l : List PyItem} {a : PyItem}
    (h : l.dropLast.contains a = true) : l.contains a = true := by
  have hm : a ∈ l.dropLast := by simpa using h
  simpa using (List.dropLast_sublist l).mem hm

/-- Helper: `_valid_ellipsis_position` rejects a tuple with an `Ellipsis`
at a non-final position. -/
theorem vep_eq_false_of_bad {sh : List PyItem}
    (h : sh.dropLast.contains PyItem.ellipsis = true) :
    valid_ellipsis_position (.pytuple sh) = false := by
  have hm : PyItem.ellipsis ∈ sh.dropLast := by simpa using h
  have h1m : PyItem.ellipsis ∈ sh := (List.dropLast_sublist sh).mem hm
  simp only [valid_ellipsis_position]
  simp [hm, h1m]

/-- Helper: `_valid_ellipsis_position` accepts a tuple whose non-final
positions are `Ellipsis`-free. -/
theorem vep_eq_true_of_good {sh : List PyItem}
    (h : sh.dropLast.contains PyItem.ellipsis = false) :
    valid_ellipsis_position (.pytuple sh) = true := by
  have hm : PyItem.ellipsis ∉ sh.dropLast := by simpa using h
  simp only [valid_ellipsis_position]
  simp [hm]

/-- Helper: a `shape`-only call with well-placed `Ellipsis` passes
validation unchanged. -/
theorem validate_shape_only_ok {sh : List PyItem}
    (h : sh.dropLast.contains PyItem.ellipsis = false) :
    validate_shape_dims_size (.pytuple sh) .none .none = .ok (.pytuple sh, .none, .none) := by
  unfold validate_shape_dims_size validateEllipsisStep
  rw [if_neg (by simp), if_neg (by simp), if_neg (by simp),
    if_neg (by simp [isShapeTyped]), if_neg (by simp [isDimsTyped]),
    if_neg (by simp [isSizeTyped, isShapeTyped])]
  simp only [normShapeSize, normDims]
  rw [if_neg (by simp [vep_eq_true_of_good h]), if_neg (by simp [valid_ellipsis_position]),
    if_neg (by simp [sizeContainsEllipsis])]

/-- Helper: a `dims`-only call with well-placed `Ellipsis` passes
validation unchanged. -/
theorem validate_dims_only_ok {ds : List PyItem}
    (h : ds.dropLast.contains PyItem.ellipsis = false) :
    validate_shape_dims_size .none (.pytuple ds) .none = .ok (.none, .pytuple ds, .none) := by
  unfold validate_shape_dims_size validateEllipsisStep
  rw [if_neg (by simp), if_neg (by simp), if_neg (by simp),
    if_neg (by simp [isShapeTyped]), if_neg (by simp [isDimsTyped]),
    if_neg (by simp [isSizeTyped, isShapeTyped])]
  simp only [normShapeSize, normDims]
  rw [if_neg (by simp [valid_ellipsis_position]), if_neg (by simp [vep_eq_true_of_good h]),
    if_neg (by simp [sizeContainsEllipsis])]

/-- Helper: a `size`-only call without `Ellipsis` passes validation
unchanged. -/
theorem validate_size_only_ok {sz : List PyItem}
    (h : sz.contains PyItem.ellipsis = false) :
    validate_shape_dims_size .none .none (.pytuple sz) = .ok (.none, .none, .pytuple sz) := by
  have hm : PyItem.ellipsis ∉ sz := by simpa using h
  unfold validate_shape_dims_size validateEllipsisStep
  rw [if_neg (by simp), if_neg (by simp), if_neg (by simp),
    if_neg (by simp [isShapeTyped]), if_neg (by simp [isDimsTyped]),
    if_neg (by simp [isSizeTyped, isShapeTyped])]
  simp only [normShapeSize, normDims]
  rw [if_neg (by simp [valid_ellipsis_position]), if_neg (by simp [valid_ellipsis_position]),
    if_neg (by simp [sizeContainsEllipsis, hm])]

set_option maxHeartbeats 2000000 in
/-- C3: a `shape` or `dims` tuple with an `Ellipsis` at any non-final
position makes the resolver fail (whatever the other two arguments are); a
`shape` or `dims` tuple with an `Ellipsis` at most in the final position
succeeds when it is the only argument; and a `size` tuple containing an
`Ellipsis` anywhere makes the resolver fail. -/
theorem C3_ellipsis_placement :
    (∀ (sh : List PyItem) (dims size : PyVal),
      sh.dropLast.contains PyItem.ellipsis = true →
      ∃ e, validate_shape_dims_size (.pytuple sh) dims size = .error e) ∧
    (∀ (ds : List PyItem) (shape size : PyVal),
      ds.dropLast.contains PyItem.ellipsis = true →
      ∃ e, validate_shape_dims_size shape (.pytuple ds) size = .error e) ∧
    (∀ (sz : List PyItem) (shape dims : PyVal),
      sz.contains PyItem.ellipsis = true →
      ∃ e, validate_shape_dims_size shape dims (.pytuple sz) = .error e) ∧
    (∀ sh : List PyItem, sh.dropLast.contains PyItem.ellipsis = false →
      validate_shape_dims_size (.pytuple sh) .none .none = .ok (.pytuple sh, .none, .none)) ∧
    (∀ ds : List PyItem, ds.dropLast.contains PyItem.ellipsis = false →
      validate_shape_dims_size .none (.pytuple ds) .none = .ok (.none, .pytuple ds, .none)) := by
  refine ⟨?_, ?_, ?_, ?_, ?_⟩
  · intro sh dims size h
    unfold validate_shape_dims_size validateEllipsisStep
    split_ifs with h1 h2 h3 h4 h5 h6 h7 h8 h9
    any_goals exact ⟨_, rfl⟩
    exact absurd (vep_eq_false_of_bad h) (by simpa [normShapeSize] using h7)
  · intro ds shape size h
    unfold validate_shape_dims_size validateEllipsisStep
    split_ifs with h1 h2 h3 h4 h5 h6 h7 h8 h9
    any_goals exact ⟨_, rfl⟩
    exact absurd (vep_eq_false_of_bad h) (by simpa [normDims] using h8)
  · intro sz shape dims h
    unfold validate_shape_dims_size validateEllipsisStep
    split_ifs with h1 h2 h3 h4 h5 h6 h7 h8 h9
    any_goals exact ⟨_, rfl⟩
    exact absurd h (by simpa [normShapeSize, sizeContainsEllipsis] using h9)
  · intro sh h
    exact validate_shape_only_ok h
  · intro ds h
    exact validate_dims_only_ok h

/-- C3 witness: concrete instances of every part of `C3_ellipsis_placement`:
`shape=(...,2)` fails, `dims=(...,"draw")` fails, `size=(...,)` fails,
`shape=(2,...)` succeeds and `dims=("draw",...)` succeeds. -/
theorem C3_ellipsis_placement_witness :
    (∃ e, validate_shape_dims_size (.pytuple [.ellipsis, .int 2]) .none .none = .error e) ∧
    (∃ e, validate_shape_dims_size .none (.pytuple [.ellipsis, .str strDraw]) .none = .error e) ∧
    (∃ e, validate_shape_dims_size .none .none (.pytuple [.ellipsis]) = .error e) ∧
    validate_shape_dims_size (.pytuple [.int 2, .ellipsis]) .none .none =
      .ok (.pytuple [.int 2, .ellipsis], .none, .none) ∧
    validate_shape_dims_size .none (.pytuple [.str strDraw, .ellipsis]) .none =
      .ok (.none, .pytuple [.str strDraw, .ellipsis], .none) :=
  ⟨C3_ellipsis_placement.1 _ .none .none (by decide),
   C3_ellipsis_placement.2.1 _ .none .none (by decide),
   C3_ellipsis_placement.2.2.1 _ .none .none (by decide),
   C3_ellipsis_placement.2.2.2.1 _ (by decide),
   C3_ellipsis_placement.2.2.2.2 _ (by decide)⟩

/-- Python slice `l[:n]` where `n` may be negative (`l[:-k]` drops the last
`k` elements, clamping at the empty list). -/
def pySlice (l : List PyItem) (n : Int) : List PyItem :=
  if 0 ≤ n then l.take n.toNat else l.take (l.length - n.natAbs)

/-- Abstraction of a distribution's underlying generator for
`Distribution.dist`: `ndim_supp` is `cls.rv_op.ndim_supp` and
`genNdim cs` is the dimensionality (`.ndim`) of the tensor returned by
`cls.rv_op(*dist_params, size=cs)`; the distribution parameters are fixed
inside the abstraction.  Claims are proved for every such generator. -/
structure RvOpModel where
  ndim_supp : Nat
  genNdim : Option (List PyItem) → Nat

/-- Modelled from the spec: `change_rv_size` lives in `pymc3/aesaraf.py`,
which is not among the sources; per spec section 4.3 step 4 the fallback
path re-invokes the generator with no size and then "forcibly
expand/broadcast the result on its leading axes using the leftover shape
entries", i.e. `change_rv_size(..., expand=True)` prepends the `new_size`
dimensions.  Only the dimensionality of the result is modelled: it grows by
the number of entries of `new_size`. -/
def change_rv_size_ndim (old_ndim : Nat) (new_size : List PyItem) : Nat :=
  old_ndim + new_size.length

/-- Dimensionality produced by the `shape`-driven fallback path of
`Distribution.dist`: the generator is re-invoked with `size=None` and, if
the result has fewer dimensions than expected, it is expanded by
`shape[: ndim_expected - rv_out.ndim]`. -/
def fallbackNdim (g : RvOpModel) (sh : List PyItem) : Nat :=
  if g.genNdim none < sh.length then
    change_rv_size_ndim (g.genNdim none) (pySlice sh ((sh.length : Int) - (g.genNdim none : Int)))
  else g.genNdim none

/-- Errors of `Distribution.dist`: a validation error propagated from
`_validate_shape_dims_size`, the fatal `ShapeError` of the `shape` fallback
path, or a symbolic (Aesara `Variable`) `shape`/`size`, whose iteration
behavior is library-specific and outside this embedding (no claim reaches
it). -/
inductive DistCallErr where
  | validation (e : ShapeArgErr)
  | shapeDimMismatch
  | notEmbedded
deriving DecidableEq, Repr

/-- Result of `Distribution.dist` as far as the claims are concerned: the
dimensionality of the returned RV and whether a non-fatal `ShapeWarning`
was emitted. -/
structure DistOutcome where
  ndim : Nat
  warned : Bool
deriving DecidableEq, Repr

namespace Distribution

/-- Embedding of `Distribution.dist` from
`pymc3/distributions/distribution.py` (the shape/size dimensionality
logic).  Steps mirror the source: validate `shape`/`size`, compute
`ndim_expected`/`ndim_batch`/`create_size`, create the RV with
`size=create_size`, use the fallback re-creation path when a `shape` was
given and the dimensionality is unexpected (raising `ShapeError` when even
the fallback mismatches), and emit a `ShapeWarning` instead when a `size`
was given and the dimensionality is unexpected.  The `testval` attachment
does not affect dimensionality and is not modelled. -/
def dist (g : RvOpModel) (shape size : PyVal) : Except DistCallErr DistOutcome :=
  match validate_shape_dims_size shape .none size with
  | .error e => .error (.validation e)
  | .ok (shapeN, _, sizeN) =>
    match shapeN, sizeN with
    | .avar _, _ => .error .notEmbedded
    | _, .avar _ => .error .notEmbedded
    | .pytuple sh, _ =>
        -- `ndim_expected = len(tuple(shape))`, `ndim_batch = ndim_expected - ndim_supp`,
        -- `create_size = tuple(shape)[:ndim_batch]` (a Python slice, so a negative
        -- `ndim_batch` drops trailing entries).
        let ndimExpected := sh.length
        let createSize := pySlice sh ((sh.length : Int) - (g.ndim_supp : Int))
        let ndimActual := g.genNdim (some createSize)
        if ndimActual ≠ ndimExpected then
          if fallbackNdim g sh = ndimExpected then
            .ok ⟨fallbackNdim g sh, false⟩
          else .error .shapeDimMismatch
        else .ok ⟨ndimActual, false⟩
    | .none, .pytuple sz =>
        let ndimExpected := g.ndim_supp + sz.length
        let ndimActual := g.genNdim (some sz)
        .ok ⟨ndimActual, decide (ndimActual ≠ ndimExpected)⟩
    | .none, .none =>
        -- Neither was given: `create_size = None` and `ndim_expected = None`;
        -- `ndim_actual != None` is `True` in Python, but neither the `shape`
        -- branch nor the `size` warning branch applies.
        .ok ⟨g.genNdim none, false⟩
    | _, _ => .error .notEmbedded

end Distribution

/-- C1: in `Distribution.dist`, a `size`-driven dimensionality mismatch is
non-fatal — the call returns the generator's result as-is and emits the
`ShapeWarning`; a `shape`-driven mismatch that persists after the fallback
(re-invoking the generator without `size` and expanding leading axes) is
fatal — the call raises the `ShapeError`.  Quantified over every generator
abstraction `g`. -/
theorem C1_size_warns_shape_fails :
    (∀ (g : RvOpModel) (sz : List PyItem),
      sz.contains PyItem.ellipsis = false →
      g.genNdim (some sz) ≠ g.ndim_supp + sz.length →
      Distribution.dist g .none (.pytuple sz) = .ok ⟨g.genNdim (some sz), true⟩) ∧
    (∀ (g : RvOpModel) (sh : List PyItem),
      sh.dropLast.contains PyItem.ellipsis = false →
      g.genNdim (some (pySlice sh ((sh.length : Int) - (g.ndim_supp : Int)))) ≠ sh.length →
      fallbackNdim g sh ≠ sh.length →
      Distribution.dist g (.pytuple sh) .none = .error .shapeDimMismatch) := by
  constructor
  · intro g sz hell hne
    unfold Distribution.dist
    rw [validate_size_only_ok hell]
    simp [hne]
  · intro g sh hell hmis hfb
    unfold Distribution.dist
    rw [validate_shape_only_ok hell]
    simp only
    rw [if_pos hmis, if_neg hfb]

/-- C1 witness: the concrete generator with `ndim_supp = 0` that returns a
`(len(size)+1)`-dimensional tensor when a size is given and a 3-dimensional
tensor otherwise: calling with `size=()` warns and returns the
1-dimensional result, while calling with `shape=(5,)` raises the fatal
`ShapeError`. -/
theorem C1_size_warns_shape_fails_witness :
    Distribution.dist ⟨0, fun o => match o with | some l => l.length + 1 | none => 3⟩
        .none (.pytuple []) = .ok ⟨1, true⟩ ∧
    Distribution.dist ⟨0, fun o => match o with | some l => l.length + 1 | none => 3⟩
        (.pytuple [.int 5]) .none = .error .shapeDimMismatch :=
  ⟨C1_size_warns_shape_fails.1 _ [] (by decide) (by decide),
   C1_size_warns_shape_fails.2 _ [.int 5] (by decide) (by decide) (by decide)⟩

/-- Programs over a model-context stack: the bodies that can appear inside
a `with model:` block.  `raiseExc` models an exception being raised;
`withModel m body` models `with m: body` for the `__enter__`/`__exit__`
pair installed by `ContextMeta.__new__` in `pymc3/model.py`. -/
inductive WithProg (M : Type) where
  | skip
  | raiseExc
  | seq (p q : WithProg M)
  | withModel (m : M) (body : WithProg M)

/-- Interpreter for `WithProg` against a context stack
(`cls.context_class.get_contexts()`), returning the final stack and whether
an exception is propagating.  `withModel` appends the instance on entry
(`__enter__` does `get_contexts().append(self)`) and removes the last
element on exit (`__exit__` does `get_contexts().pop()`); Python runs
`__exit__` both on normal completion and while an exception unwinds, which
is why the pop happens on both components of the body's outcome. -/
def runWith {M : Type} : WithProg M → List M → List M × Bool
  | .skip, s => (s, false)
  | .raiseExc, s => (s, true)
  | .seq p q, s =>
      match runWith p s with
      | (s1, true) => (s1, true)
      | (s1, false) => runWith q s1
  | .withModel m body, s => ((runWith body (s ++ [m])).1.dropLast, (runWith body (s ++ [m])).2)

/-- Helper: every program leaves the context stack exactly as it found it
(each push has a matching pop on all exit paths). -/
theorem runWith_stack_preserved {M : Type} (p : WithProg M) (s : List M) :
    (runWith p s).1 = s := by
  induction p generalizing s with
  | skip => rfl
  | raiseExc => rfl
  | seq p q ihp ihq =>
      show (match runWith p s with
        | (s1, true) => (s1, true)
        | (s1, false) => runWith q s1).1 = s
      rcases hp : runWith p s with ⟨s1, e⟩
      have hs1 : s1 = s := by have := ihp s; rw [hp] at this; exact this
      cases e with
      | true => simpa using hs1
      | false => simpa [hs1] using ihq s
  | withModel m body ih =>
      show ((runWith body (s ++ [m])).1.dropLast) = s
      rw [ih (s ++ [m])]
      simp

/-- C8: exiting a model context pops exactly the instance pushed on entry —
after the `with` block (whether its body completed normally or raised), the
stack equals the stack before entry, and the element removed by the final
pop (the last stack entry after the body ran) is the pushed instance. -/
theorem C8_context_stack_discipline {M : Type} (m : M) (body : WithProg M) (s : List M) :
    (runWith (WithProg.withModel m body) s).1 = s ∧
    (runWith body (s ++ [m])).1.getLast? = some m := by
  constructor
  · exact runWith_stack_preserved _ s
  · rw [runWith_stack_preserved body (s ++ [m])]
    simp

/-- Embedding of the `Model.prefix` property: `"%s_" % self.name` when the
model has a non-empty name, otherwise the empty string (Python string
truthiness). -/
def prefixStr (mname : PyStr) : PyStr :=
  if mname = [] then [] else mname ++ ['_']

/-- Embedding of `Model.name_for`: adds the model prefix when the name does
not already start with it. -/
def name_for (mname name : PyStr) : PyStr :=
  if prefixStr mname ≠ [] then
    if ¬ (prefixStr mname).isPrefixOf name then prefixStr mname ++ name
    else name
  else name

/-- Embedding of `Model.name_of`: removes the model prefix when present. -/
def name_of (mname name : PyStr) : PyStr :=
  if prefixStr mname = [] ∨ name = [] then name
  else if (prefixStr mname).isPrefixOf name then name.drop (prefixStr mname).length
  else name

/-- C9: `Model.name_for` is idempotent for every model name and every
string, and for every non-empty string not already starting with the
model's prefix, `Model.name_of` undoes `Model.name_for`. -/
theorem C9_name_for_idempotent_name_of_inverse (mname x : PyStr) :
    name_for mname (name_for mname x) = name_for mname x ∧
    (x ≠ [] → ¬ ((prefixStr mname).isPrefixOf x = true) →
      name_of mname (name_for mname x) = x) := by
  constructor
  · by_cases hp : prefixStr mname = []
    · simp [name_for, hp]
    · by_cases hpre : (prefixStr mname).isPrefixOf x = true
      · simp [name_for, hp, hpre]
      · have h2 : (prefixStr mname).isPrefixOf (prefixStr mname ++ x) = true := by
          simp
        simp [name_for, hp, hpre, h2]
  · intro hx hpre
    have hp : prefixStr mname ≠ [] := by
      intro h
      exact hpre (by simp [h, List.isPrefixOf_iff_prefix])
    have hfor : name_for mname x = prefixStr mname ++ x := by
      simp [name_for, hp, hpre]
    have hne : prefixStr mname ++ x ≠ [] := by
      intro h
      exact hp (List.append_eq_nil.mp h).1
    have h2 : (prefixStr mname).isPrefixOf (prefixStr mname ++ x) = true := by
      simp
    rw [hfor]
    unfold name_of
    rw [if_neg (by simp [hp, hne]), if_pos h2]
    exact List.drop_left _ _

/-- C9 witness: for the model named `m` and the variable name `x`,
`name_for` is idempotent and `name_of` recovers `x`. -/
theorem C9_name_for_idempotent_name_of_inverse_witness :
    name_for ['m'] (name_for ['m'] ['x']) = name_for ['m'] ['x'] ∧
    name_of ['m'] (name_for ['m'] ['x']) = ['x'] :=
  ⟨(C9_name_for_idempotent_name_of_inverse ['m'] ['x']).1,
   (C9_name_for_idempotent_name_of_inverse ['m'] ['x']).2 (by decide) (by decide)⟩

/-- Lookup in an association list (embedding of a Python dict lookup with
string keys, in insertion order). -/
def alookup {B : Type} : List (PyStr × B) → PyStr → Option B
  | [], _ => none
  | (k, v) :: rest, key => if k = key then some v else alookup rest key

/-- Assignment `d[key] = v` in an association list: replace the binding if
the key is present, otherwise append it. -/
def aset {B : Type} : List (PyStr × B) → PyStr → B → List (PyStr × B)
  | [], key, v => [(key, v)]
  | (k, w) :: rest, key, v =>
      if k = key then (k, v) :: rest else (k, w) :: aset rest key v

/-- Python value passed for the `length` argument of `Model.add_coord`:
either an Aesara `Variable` (identified by a tag) or a value of any other
type, which the `isinstance(length, Variable)` guard rejects. -/
inductive PyLength where
  | avar (id : Nat)
  | nonVar
deriving DecidableEq, Repr

/-- Stored entry of `Model._dim_lengths`: either the `length` argument that
was passed, or `aesara.shared(len(values))` created as the default. -/
inductive DimLength where
  | given (l : PyLength)
  | sharedOfLen (n : Nat)
deriving DecidableEq, Repr

/-- The dimension-coordinate registry of a model: `Model._coords` maps a
dimension name to its coordinate values (or `None`), `Model._dim_lengths`
maps it to a symbolic length.  Coordinate values are embedded as lists in
a label type `V`; the `equals` comparison of the source (a pandas `Index`
equality) is embedded as structural equality of those lists. -/
structure CoordRegistry (V : Type) where
  coords : List (PyStr × Option (List V))
  dim_lengths : List (PyStr × DimLength)
deriving DecidableEq, Repr

/-- Errors of `Model.add_coord`: the three `raise ValueError` sites, plus
the `AttributeError` Python raises when `values` is `None` for an
already-registered name (`None.equals` does not exist). -/
inductive CoordErr where
  | reservedName
  | needValuesOrLength
  | lengthNotVariable
  | incompatible
  | attributeErr
deriving DecidableEq, Repr

/-- Embedding of `Model.add_coord` from `pymc3/model.py`: rejects reserved
names, requires `values` or `length`, requires a `Variable`-typed `length`,
compares against an existing registration (no-op when equal, error when
not), and otherwise stores `values` and `length or aesara.shared(len(values))`.
(A supplied Aesara `Variable` is truthy, so `length or ...` keeps it.) -/
def add_coord {V : Type} [DecidableEq V] (reg : CoordRegistry V) (name : PyStr)
    (values : Option (List V)) (length : Option PyLength) :
    Except CoordErr (CoordRegistry V) :=
  if name = strDraw ∨ name = strChain ∨ name = strSample then .error .reservedName
  else if values = none ∧ length = none then .error .needValuesOrLength
  else if (match length with | some .nonVar => true | _ => false) then .error .lengthNotVariable
  else
    match alookup reg.coords name with
    | some old =>
        match values with
        | none => .error .attributeErr
        | some vs => if old = some vs then .ok reg else .error .incompatible
    | none =>
        let newLen : DimLength :=
          match length, values with
          | some l, _ => .given l
          | none, some vs => .sharedOfLen vs.length
          | none, none => .sharedOfLen 0
          -- the (none, none) case is unreachable: it was rejected above
        .ok ⟨aset reg.coords name values, aset reg.dim_lengths name newLen⟩

/-- C5: `Model.add_coord` fails for the reserved names `chain`, `draw` and
`__sample__`; fails when both `values` and `length` are `None`; is a no-op
(same registry, no error) when re-adding a registered name with identical
values; and fails when re-adding a registered name with incompatible
values. -/
theorem C5_add_coord_registry {V : Type} [DecidableEq V] (reg : CoordRegistry V) :
    (∀ (name : PyStr) (values : Option (List V)) (length : Option PyLength),
      (name = strChain ∨ name = strDraw ∨ name = strSample) →
      add_coord reg name values length = .error .reservedName) ∧
    (∀ name : PyStr, ∃ e, add_coord reg name (none : Option (List V)) none = .error e) ∧
    (∀ (name : PyStr) (vs : List V),
      ¬ (name = strDraw ∨ name = strChain ∨ name = strSample) →
      alookup reg.coords name = some (some vs) →
      add_coord reg name (some vs) none = .ok reg) ∧
    (∀ (name : PyStr) (vs : List V) (old : Option (List V)),
      ¬ (name = strDraw ∨ name = strChain ∨ name = strSample) →
      alookup reg.coords name = some old → old ≠ some vs →
      add_coord reg name (some vs) none = .error .incompatible) := by
  refine ⟨?_, ?_, ?_, ?_⟩
  · intro name values length h
    unfold add_coord
    rw [if_pos (by tauto)]
  · intro name
    unfold add_coord
    by_cases h : name = strDraw ∨ name = strChain ∨ name = strSample
    · exact ⟨_, by rw [if_pos h]⟩
    · exact ⟨_, by rw [if_neg h, if_pos ⟨rfl, rfl⟩]⟩
  · intro name vs hres hlook
    unfold add_coord
    rw [if_neg hres, if_neg (by simp), if_neg (by simp), hlook]
    simp
  · intro name vs old hres hlook hne
    unfold add_coord
    rw [if_neg hres, if_neg (by simp), if_neg (by simp), hlook]
    simp [hne]

/-- C5 witness: with a registry holding the coordinate `a -> [0, 1]`, the
reserved name `chain` fails, a call without `values` and `length` fails,
re-adding `a -> [0, 1]` is a no-op, and re-adding `a -> [2]` fails. -/
theorem C5_add_coord_registry_witness :
    add_coord (V := Nat) ⟨[(['a'], some [0, 1])], [(['a'], .sharedOfLen 2)]⟩
        strChain (some [0, 1]) none = .error .reservedName ∧
    (∃ e, add_coord (V := Nat) ⟨[(['a'], some [0, 1])], [(['a'], .sharedOfLen 2)]⟩
        ['b'] none none = .error e) ∧
    add_coord (V := Nat) ⟨[(['a'], some [0, 1])], [(['a'], .sharedOfLen 2)]⟩
        ['a'] (some [0, 1]) none = .ok ⟨[(['a'], some [0, 1])], [(['a'], .sharedOfLen 2)]⟩ ∧
    add_coord (V := Nat) ⟨[(['a'], some [0, 1])], [(['a'], .sharedOfLen 2)]⟩
        ['a'] (some [2]) none = .error .incompatible :=
  ⟨(C5_add_coord_registry _).1 _ _ _ (Or.inl rfl),
   (C5_add_coord_registry _).2.1 ['b'],
   (C5_add_coord_registry _).2.2.1 ['a'] [0, 1] (by decide) (by decide),
   (C5_add_coord_registry _).2.2.2 ['a'] [2] (some [0, 1]) (by decide) (by decide) (by decide)⟩

/-- Embedding of `np.shape(...)` on a stored coordinate entry: a registered
values sequence of length `n` has shape `(n,)`, while a `None` entry (a
dimension registered through `length` only) has shape `()`. -/
def np_shape {V : Type} : Option (List V) → List Nat
  | none => []
  | some vs => [vs.length]

/-- Errors of `Model.shape_from_dims`: the duplicate-name check and the
unknown-dimension check. -/
inductive DimsErr where
  | duplicated
  | unknownDim
deriving DecidableEq, Repr

/-- Loop body of `Model.shape_from_dims`: for each dimension name, fail if
it is not a registered coordinate, otherwise extend the shape with
`np.shape(self.coords[dim])`. -/
def shape_from_dims_loop {V : Type} (reg : CoordRegistry V) :
    List PyStr → Except DimsErr (List Nat)
  | [] => .ok []
  | d :: rest =>
      match alookup reg.coords d with
      | none => .error .unknownDim
      | some vs =>
          match shape_from_dims_loop reg rest with
          | .ok tail => .ok (np_shape vs ++ tail)
          | .error e => .error e

/-- Embedding of `Model.shape_from_dims` from `pymc3/model.py`: reject a
tuple containing the same dimension name twice (`len(set(dims)) != len(dims)`),
then resolve each name against the coordinate registry. -/
def shape_from_dims {V : Type} (reg : CoordRegistry V) (dims : List PyStr) :
    Except DimsErr (List Nat) :=
  if dims.dedup.length ≠ dims.length then .error .duplicated
  else shape_from_dims_loop reg dims

/-- Helper: when every dimension name is registered, the loop of
`shape_from_dims` returns the concatenation of the per-coordinate shapes. -/
theorem shape_from_dims_loop_ok {V : Type} (reg : CoordRegistry V) (dims : List PyStr)
    (hall : ∀ d ∈ dims, (alookup reg.coords d).isSome) :
    shape_from_dims_loop reg dims =
      .ok (dims.map (fun d => np_shape ((alookup reg.coords d).getD none))).flatten := by
  induction dims with
  | nil => rfl
  | cons d rest ih =>
      have hd : (alookup reg.coords d).isSome := hall d (by simp)
      rcases ho : alookup reg.coords d with _ | vs
      · rw [ho] at hd; simp at hd
      · unfold shape_from_dims_loop
        rw [ho, ih (fun x hx => hall x (by simp [hx]))]
        simp [ho]

/-- Helper: a name missing from the registry makes the loop fail. -/
theorem shape_from_dims_loop_unknown {V : Type} (reg : CoordRegistry V) (dims : List PyStr)
    (d : PyStr) (hmem : d ∈ dims) (hnone : alookup reg.coords d = none) :
    ∃ e, shape_from_dims_loop reg dims = .error e := by
  induction dims with
  | nil => simp at hmem
  | cons x rest ih =>
      unfold shape_from_dims_loop
      rcases ho : alookup reg.coords x with _ | vs
      · exact ⟨_, rfl⟩
      · rcases List.mem_cons.mp hmem with hmem | hmem
        · subst hmem; rw [ho] at hnone; exact absurd hnone (by simp)
        · rcases ih hmem with ⟨e, he⟩
          rw [he]
          exact ⟨e, rfl⟩

/-- Helper: `len(set(dims)) != len(dims)` is exactly failure of `Nodup`. -/
theorem dedup_length_ne_iff {dims : List PyStr} :
    dims.dedup.length ≠ dims.length ↔ ¬ dims.Nodup := by
  constructor
  · intro h hnd
    exact h (by rw [List.dedup_eq_self.mpr hnd])
  · intro hnd h
    exact hnd (by
      have := List.Sublist.eq_of_length (List.dedup_sublist dims) h
      rw [← this]
      exact List.nodup_dedup dims)

/-- C6: `Model.shape_from_dims` fails on a tuple with a duplicated name,
fails on a tuple containing an unregistered name, and otherwise returns the
concatenation of the shapes of the named coordinates' values, in order. -/
theorem C6_shape_from_dims_resolution {V : Type} (reg : CoordRegistry V) (dims : List PyStr) :
    (¬ dims.Nodup → shape_from_dims reg dims = .error .duplicated) ∧
    (∀ d ∈ dims, alookup reg.coords d = none →
      ∃ e, shape_from_dims reg dims = .error e) ∧
    (dims.Nodup → (∀ d ∈ dims, (alookup reg.coords d).isSome) →
      shape_from_dims reg dims =
        .ok (dims.map (fun d => np_shape ((alookup reg.coords d).getD none))).flatten) := by
  refine ⟨?_, ?_, ?_⟩
  · intro hnd
    unfold shape_from_dims
    rw [if_pos (dedup_length_ne_iff.mpr hnd)]
  · intro d hmem hnone
    unfold shape_from_dims
    by_cases hdup : dims.dedup.length ≠ dims.length
    · exact ⟨_, by rw [if_pos hdup]⟩
    · rcases shape_from_dims_loop_unknown reg dims d hmem hnone with ⟨e, he⟩
      exact ⟨e, by rw [if_neg hdup]; exact he⟩
  · intro hnd hall
    unfold shape_from_dims
    rw [if_neg (fun h => dedup_length_ne_iff.mp h hnd)]
    exact shape_from_dims_loop_ok reg dims hall

/-- C6 witness: with coordinates `a -> [0, 1]` and `b -> None`, the dims
tuple `(a, a)` fails, `(a, c)` fails, and `(a, b)` resolves to the shape
`(2,)` (a `None` entry contributes no axis). -/
theorem C6_shape_from_dims_resolution_witness :
    shape_from_dims (V := Nat) ⟨[(['a'], some [0, 1]), (['b'], none)], []⟩
        [['a'], ['a']] = .error .duplicated ∧
    (∃ e, shape_from_dims (V := Nat) ⟨[(['a'], some [0, 1]), (['b'], none)], []⟩
        [['a'], ['c']] = .error e) ∧
    shape_from_dims (V := Nat) ⟨[(['a'], some [0, 1]), (['b'], none)], []⟩
        [['a'], ['b']] = .ok [2] :=
  ⟨(C6_shape_from_dims_resolution _ _).1 (by decide),
   (C6_shape_from_dims_resolution _ _).2.1 ['c'] (by decide) (by decide),
   (C6_shape_from_dims_resolution _ _).2.2 (by decide) (by decide)⟩

/-- A symbolic tensor variable as the registration machinery sees it: its
name, the list of its symbolic element slots (the RVs the claims exercise
are one-dimensional, so a flat element list suffices and the
`data.ndim != rv_var.ndim` guard of `make_obs_var` never fires), and the
`tag.observations` attachment of observed RVs. -/
structure SymRV (α : Type) where
  name : PyStr
  elems : List α
  observations : Option (List α) := none
deriving DecidableEq, Repr

/-- Non-fatal warnings emitted by the registration machinery
(`ImputationWarning` from `make_obs_var`). -/
inductive WarnKind where
  | imputationWarn
deriving DecidableEq, Repr

/-- The model-side registration state: the ordered variable collections of
`Model.__init__`, the `named_vars` registry (modelled by its key list), the
RV/value-variable maps (keyed by variable name), and the warnings emitted
so far.  `Model.register_rv` mutates these in place; the embedding passes
the state functionally, and an `Except.error` models an exception raised
at a point where the claims' code paths have not yet mutated anything they
observe. -/
structure MState (α : Type) where
  mname : PyStr
  free_RVs : List (SymRV α)
  observed_RVs : List (SymRV α)
  deterministics : List (SymRV α)
  auto_deterministics : List (SymRV α)
  named_vars : List PyStr
  rvs_to_values : List (PyStr × PyStr)
  values_to_rvs : List (PyStr × PyStr)
  warns : List WarnKind
deriving DecidableEq, Repr

/-- The `transform` argument of `register_rv`/`make_obs_var`: the `UNSET`
sentinel default, an explicit `None`, or an explicit transform object
(modelled by its name). -/
inductive TransformArg where
  | unset
  | noTransform
  | transf (tname : PyStr)
deriving DecidableEq, Repr

/-- Observed data as it reaches `Model.register_rv`: a plain dense array, a
numpy masked array (a `none` entry is a masked value), or an Aesara graph
`Variable` with flags for the special placeholder types
(`GenTensorVariable`/`Minibatch`) and for having an `owner` (upstream
dependencies).  `pandas_to_array` (in `pymc3/aesaraf.py`, not among the
sources) is, per spec section 4.5, a coercion of the data "to an
array-like (dense, masked, or sparse)"; it is modelled as the identity on
these already-coerced values (its test suite checks masked input comes
back as an equal masked array). -/
inductive ObsData (α : Type) where
  | dense (vals : List α)
  | masked (vals : List (Option α))
  | gvar (special : Bool) (hasOwner : Bool) (vals : List α)
deriving DecidableEq, Repr

/-- Errors of the registration machinery: the name-collision check of
`Model.add_random_variable` and the dependent-observed-data check of
`Model.register_rv`. -/
inductive RegErr where
  | nameCollision
  | dependentData
deriving DecidableEq, Repr

/-- Dict-style key insertion (`self.named_vars[k] = v` keeps the key list
unchanged when the key is already present). -/
def dictAddKey (ks : List PyStr) (k : PyStr) : List PyStr :=
  if ks.contains k then ks else ks ++ [k]

/-- Embedding of `mask.nonzero()` for a boolean vector: the indices of the
`true` entries, in increasing order. -/
def nonzero (mask : List Bool) : List Nat :=
  (List.range mask.length).filter (fun i => mask.getD i false)

/-- Embedding of advanced indexing `xs[idxs]` for in-range index vectors. -/
def index_select {α : Type} (xs : List α) (idxs : List Nat) : List α :=
  idxs.filterMap (fun i => xs.get? i)

/-- Embedding of `at.set_subtensor(base[idxs], vals)`: write `vals[j]` at
position `idxs[j]` of `base`, left to right. -/
def set_subtensor {α : Type} : List α → List Nat → List α → List α
  | base, i :: idxs, v :: vals => set_subtensor (base.set i v) idxs vals
  | base, _, _ => base

/-- Embedding of `Model.create_value_var` as far as the registration state
is concerned: resolve the transform (`UNSET` falls back to
`logp_transform(rv_var.owner.op)`, abstracted as the function `dt`), name
the value variable after the RV — with the `_<transform>__` suffix and an
extra `named_vars` entry when a transform applies — and record the
bidirectional RV/value-variable mapping. -/
def create_value_var {α : Type} (dt : SymRV α → Option PyStr) (s : MState α)
    (rv : SymRV α) (transform : TransformArg) : MState α :=
  let t : Option PyStr :=
    match transform with
    | .unset => dt rv
    | .noTransform => none
    | .transf tn => some tn
  match t with
  | some tn =>
      let vname := rv.name ++ ['_'] ++ tn ++ ['_', '_']
      { s with named_vars := dictAddKey s.named_vars vname,
               rvs_to_values := aset s.rvs_to_values rv.name vname,
               values_to_rvs := aset s.values_to_rvs vname rv.name }
  | none =>
      { s with rvs_to_values := aset s.rvs_to_values rv.name rv.name,
               values_to_rvs := aset s.values_to_rvs rv.name rv.name }

/-- Embedding of `Model.add_random_variable`: fail on a name collision
(`named_vars.tree_contains`), otherwise record the variable.  (The
`_RV_dims` bookkeeping and the cosmetic `setattr` are not observed by any
claim and are not modelled.) -/
def add_random_variable {α : Type} (s : MState α) (rv : SymRV α) :
    Except RegErr (MState α) :=
  if s.named_vars.contains rv.name then .error .nameCollision
  else .ok { s with named_vars := s.named_vars ++ [rv.name] }

/-- The `data is None` branch of `Model.register_rv`: qualify the name,
append to `free_RVs`, create the value variable, add to `named_vars`.
`make_obs_var` re-enters `register_rv` only with `data=None`, so this
helper is also the body of that recursive call. -/
def register_free_rv {α : Type} (dt : SymRV α → Option PyStr) (s : MState α)
    (rv : SymRV α) (name : PyStr) (transform : TransformArg) :
    Except RegErr (MState α × SymRV α) :=
  let rv2 : SymRV α := { rv with name := name_for s.mname name }
  let s1 : MState α := { s with free_RVs := s.free_RVs ++ [rv2] }
  let s2 := create_value_var dt s1 rv2 transform
  match add_random_variable s2 rv2 with
  | .error e => .error e
  | .ok s3 => .ok (s3, rv2)

/-- Embedding of `Model.make_obs_var` from `pymc3/model.py`.  For masked
data: if every entry is masked, return the RV unchanged; otherwise emit the
`ImputationWarning`, register the lifted masked-index sub-RV as a free RV
named `<name>_missing` (via `register_rv` with no data), register the
lifted unmasked-index sub-RV as an observed RV named `<name>_observed` with
the non-missing data slice attached, and register the
zeros/`set_subtensor` recombination as an auto deterministic under the
original name (`Deterministic(..., auto=True)` appends to
`auto_deterministics` and then calls `add_random_variable`).  For dense
data (and for the accepted graph-variable placeholders, which reach the
same dense branch): attach the observations and register as an observed
RV.  The `local_subtensor_rv_lift` graph rewrite (an Aesara collaborator)
turns `rv[idxs]` into an independent sub-RV over the indexed element slots,
which is what `index_select` captures; the test-value bookkeeping is not
modelled. -/
def make_obs_var {α : Type} (zeroV : α) (dt : SymRV α → Option PyStr) (s : MState α)
    (rv : SymRV α) (data : ObsData α) (transform : TransformArg) :
    Except RegErr (MState α × SymRV α) :=
  match data with
  | .masked vals =>
      let mask : List Bool := vals.map (fun v => v.isNone)
      if mask.all (fun b => b) then .ok (s, rv)
      else
        let s0 : MState α := { s with warns := s.warns ++ [.imputationWarn] }
        let maskIdx := nonzero mask
        let antimaskIdx := nonzero (mask.map (fun b => ! b))
        let missingBase : SymRV α := { name := [], elems := index_select rv.elems maskIdx }
        match register_free_rv dt s0 missingBase (rv.name ++ sufMissing) transform with
        | .error e => .error e
        | .ok (s1, missingRV) =>
          let nonmissingData := vals.filterMap (fun v => v)
          let observedRV : SymRV α :=
            { name := rv.name ++ sufObserved,
              elems := index_select rv.elems antimaskIdx,
              observations := some nonmissingData }
          let s2 := create_value_var dt s1 observedRV transform
          match add_random_variable s2 observedRV with
          | .error e => .error e
          | .ok s3 =>
            let s4 : MState α := { s3 with observed_RVs := s3.observed_RVs ++ [observedRV] }
            let detElems :=
              set_subtensor
                (set_subtensor (List.replicate vals.length zeroV) maskIdx missingRV.elems)
                antimaskIdx observedRV.elems
            let detRV : SymRV α := { name := name_for s4.mname rv.name, elems := detElems }
            let s5 : MState α :=
              { s4 with auto_deterministics := s4.auto_deterministics ++ [detRV] }
            match add_random_variable s5 detRV with
            | .error e => .error e
            | .ok s6 => .ok (s6, detRV)
  | .dense vals =>
      let rv2 : SymRV α := { rv with observations := some vals }
      let s1 := create_value_var dt s rv2 transform
      match add_random_variable s1 rv2 with
      | .error e => .error e
      | .ok s2 => .ok ({ s2 with observed_RVs := s2.observed_RVs ++ [rv2] }, rv2)
  | .gvar _ _ vals =>
      let rv2 : SymRV α := { rv with observations := some vals }
      let s1 := create_value_var dt s rv2 transform
      match add_random_variable s1 rv2 with
      | .error e => .error e
      | .ok s2 => .ok ({ s2 with observed_RVs := s2.observed_RVs ++ [rv2] }, rv2)

/-- Embedding of `Model.register_rv` from `pymc3/model.py`: qualify the
name with the model prefix; with no data take the free-RV path; with data,
reject a graph `Variable` that has an `owner` and is not one of the
accepted placeholder types, then hand over to `make_obs_var`.  (The
`total_size` tag is not observed by any claim and is not modelled.) -/
def register_rv {α : Type} (zeroV : α) (dt : SymRV α → Option PyStr) (s : MState α)
    (rv : SymRV α) (name : PyStr) (data : Option (ObsData α)) (transform : TransformArg) :
    Except RegErr (MState α × SymRV α) :=
  match data with
  | none => register_free_rv dt s rv name transform
  | some d =>
      let rv2 : SymRV α := { rv with name := name_for s.mname name }
      if (match d with | .gvar special hasOwner _ => ! special && hasOwner | _ => false) then
        .error .dependentData
      else make_obs_var zeroV dt s rv2 d transform


/-- Helper: `set_subtensor` preserves the length of the base tensor. -/
theorem set_subtensor_length {α : Type} (idxs : List Nat) (vals : List α) (base : List α) :
    (set_subtensor base idxs vals).length = base.length := by
  induction idxs generalizing vals base with
  | nil => cases vals <;> rfl
  | cons i rest ih =>
      cases vals with
      | nil => rfl
      | cons v vs => rw [set_subtensor, ih vs]; simp

/-- Helper: `set_subtensor` leaves positions outside the index vector
unchanged. -/
theorem set_subtensor_get_not_mem {α : Type} (idxs : List Nat) (vals : List α)
    (base : List α) (i : Nat) (h : i ∉ idxs) :
    (set_subtensor base idxs vals)[i]? = base[i]? := by
  induction idxs generalizing vals base with
  | nil => cases vals <;> rfl
  | cons j rest ih =>
      cases vals with
      | nil => rfl
      | cons v vs =>
          rw [set_subtensor, ih vs _ (fun hm => h (List.mem_cons_of_mem j hm))]
          exact List.getElem?_set_ne (by intro hj; subst hj; exact h (List.mem_cons_self j rest))

/-- Helper: with pairwise-distinct in-range indices, `set_subtensor` writes
`vals[j]` at position `idxs[j]`. -/
theorem set_subtensor_get_at {α : Type} (idxs : List Nat) (vals : List α) (base : List α)
    (j i : Nat) (v : α) (hnd : idxs.Nodup) (hj : idxs[j]? = some i)
    (hv : vals[j]? = some v) (hlt : i < base.length) :
    (set_subtensor base idxs vals)[i]? = some v := by
  induction j generalizing idxs vals base with
  | zero =>
      cases idxs with
      | nil => simp at hj
      | cons i0 rest =>
          cases vals with
          | nil => simp at hv
          | cons v0 vs =>
              have hji : i0 = i := by simpa using hj
              have hvv : v0 = v := by simpa using hv
              rw [set_subtensor, hvv,
                set_subtensor_get_not_mem rest vs _ i (hji ▸ (List.nodup_cons.mp hnd).1),
                hji]
              exact List.getElem?_set_self hlt
  | succ j ih =>
      cases idxs with
      | nil => simp at hj
      | cons i0 rest =>
          cases vals with
          | nil => simp at hv
          | cons v0 vs =>
              rw [set_subtensor]
              exact ih rest vs (base.set i0 v0) (List.nodup_cons.mp hnd).2
                (by simpa using hj) (by simpa using hv) (by simpa using hlt)

/-- Helper: membership in `nonzero mask` means an in-range index whose mask
entry is `true`. -/
theorem mem_nonzero_iff {mask : List Bool} {i : Nat} :
    i ∈ nonzero mask ↔ i < mask.length ∧ mask[i]? = some true := by
  unfold nonzero
  rw [List.mem_filter, List.mem_range]
  rw [List.getD_eq_getElem?_getD]
  constructor
  · rintro ⟨h1, h2⟩
    refine ⟨h1, ?_⟩
    rcases hg : mask[i]? with _ | b
    · rw [List.getElem?_eq_none_iff] at hg; omega
    · rw [hg] at h2
      simp only [Option.getD_some] at h2
      rw [h2]
  · rintro ⟨h1, h2⟩
    exact ⟨h1, by simp [h2]⟩

/-- Helper: the index vector produced by `nonzero` has no duplicates. -/
theorem nonzero_nodup (mask : List Bool) : (nonzero mask).Nodup :=
  (List.nodup_range _).filter _

/-- Helper: an index of a masked entry is not an index of an unmasked
entry. -/
theorem nonzero_disjoint {mask : List Bool} {i : Nat} (h : i ∈ nonzero mask) :
    i ∉ nonzero (mask.map (fun b => ! b)) := by
  intro h2
  rcases mem_nonzero_iff.mp h with ⟨_, hg⟩
  rcases mem_nonzero_iff.mp h2 with ⟨_, hg2⟩
  rw [List.getElem?_map, hg] at hg2
  simp at hg2

/-- Helper: selecting in-range indices yields one element per index. -/
theorem index_select_length {α : Type} (xs : List α) (idxs : List Nat)
    (h : ∀ i ∈ idxs, i < xs.length) :
    (index_select xs idxs).length = idxs.length := by
  induction idxs with
  | nil => rfl
  | cons i rest ih =>
      have hi : i < xs.length := h i (by simp)
      rcases hg : xs.get? i with _ | x
      · rw [List.get?_eq_getElem?, List.getElem?_eq_none_iff] at hg; omega
      · unfold index_select at ih ⊢
        rw [List.filterMap_cons, hg]
        simp [ih (fun k hk => h k (by simp [hk]))]
        intro a ha
        rw [List.getElem?_eq_getElem (h a (List.mem_cons_of_mem i ha))]
        rfl

/-- Helper: selecting in-range indices takes each element pointwise. -/
theorem index_select_get {α : Type} (xs : List α) (idxs : List Nat) (j i : Nat)
    (hj : idxs[j]? = some i) (h : ∀ k ∈ idxs, k < xs.length) :
    (index_select xs idxs)[j]? = xs[i]? := by
  induction idxs generalizing j with
  | nil => simp at hj
  | cons i0 rest ih =>
      have hi0 : i0 < xs.length := h i0 (by simp)
      rcases hg : xs.get? i0 with _ | x
      · rw [List.get?_eq_getElem?, List.getElem?_eq_none_iff] at hg; omega
      · unfold index_select at ih ⊢
        rw [List.filterMap_cons, hg]
        cases j with
        | zero =>
            have hii : i0 = i := by simpa using hj
            rw [← hii, ← List.get?_eq_getElem?]
            simpa using hg.symm
        | succ j =>
            have := ih j (by simpa using hj) (fun k hk => h k (by simp [hk]))
            simpa using this

/-- C10: `register_rv` with a fully masked observation returns the original
RV (renamed only) and leaves every model collection untouched: nothing is
appended to `free_RVs`, `observed_RVs`, the deterministic lists, no value
variable is recorded and `named_vars` is unchanged, because `make_obs_var`
returns before any registration step. -/
theorem C10_fully_masked_observation_no_effect {α : Type} (zeroV : α)
    (dt : SymRV α → Option PyStr) (s : MState α) (rv : SymRV α) (name : PyStr)
    (vals : List (Option α)) (transform : TransformArg)
    (hall : vals.all (fun v => v.isNone) = true) :
    register_rv zeroV dt s rv name (some (.masked vals)) transform =
      .ok (s, { rv with name := name_for s.mname name }) := by
  have hmask : ((vals.map (fun v => v.isNone)).all (fun b => b)) = true := by
    simpa [List.all_map, Function.comp] using hall
  unfold register_rv make_obs_var
  simp [hmask]

/-- C10 witness: observing a fully masked length-2 vector on an empty root
model returns the RV unchanged and the state unchanged. -/
theorem C10_fully_masked_observation_no_effect_witness :
    register_rv (α := Nat) 0 (fun _ => none)
        ⟨[], [], [], [], [], [], [], [], []⟩ ⟨['x'], [7], none⟩ ['x']
        (some (.masked [none, none])) .noTransform =
      .ok (⟨[], [], [], [], [], [], [], [], []⟩, ⟨['x'], [7], none⟩) :=
  C10_fully_masked_observation_no_effect 0 (fun _ => none) _ _ _ _ _ (by decide)

/-- Helper: `add_random_variable` can only fail with a name collision. -/
theorem add_random_variable_error {α : Type} {s : MState α} {rv : SymRV α} {e : RegErr}
    (h : add_random_variable s rv = .error e) : e = .nameCollision := by
  unfold add_random_variable at h
  split at h
  · injection h with h
    exact h.symm
  · simp at h


/-- Helper: the free-RV registration path can only fail with a name
collision. -/
theorem register_free_rv_error {α : Type} {dt : SymRV α → Option PyStr} {s : MState α}
    {rv : SymRV α} {name : PyStr} {transform : TransformArg} {e : RegErr}
    (h : register_free_rv dt s rv name transform = .error e) : e = .nameCollision := by
  unfold register_free_rv at h
  dsimp only at h
  split at h
  next e2 heq =>
    injection h with h
    exact h ▸ add_random_variable_error heq
  next => simp at h

/-- Helper: `make_obs_var` can only fail with a name collision (the
dependent-data check lives in `register_rv`, before `make_obs_var` runs). -/
theorem make_obs_var_error {α : Type} {zeroV : α} {dt : SymRV α → Option PyStr}
    {s : MState α} {rv : SymRV α} {data : ObsData α} {transform : TransformArg} {e : RegErr}
    (h : make_obs_var zeroV dt s rv data transform = .error e) : e = .nameCollision := by
  cases data with
  | masked vals =>
      unfold make_obs_var at h
      dsimp only at h
      split at h
      · simp at h
      · split at h
        next e2 heq =>
          injection h with h
          exact h ▸ register_free_rv_error heq
        next s1 missingRV heq =>
          split at h
          next e2 heq2 =>
            injection h with h
            exact h ▸ add_random_variable_error heq2
          next s3 heq2 =>
            split at h
            next e2 heq3 =>
              injection h with h
              exact h ▸ add_random_variable_error heq3
            next => simp at h
  | dense vals =>
      unfold make_obs_var at h
      dsimp only at h
      split at h
      next e2 heq =>
        injection h with h
        exact h ▸ add_random_variable_error heq
      next => simp at h
  | gvar special hasOwner vals =>
      unfold make_obs_var at h
      dsimp only at h
      split at h
      next e2 heq =>
        injection h with h
        exact h ▸ add_random_variable_error heq
      next => simp at h

/-- C7: `register_rv` with observed data raises the dependent-data error
exactly when the data is a graph variable that has an owner (upstream
dependencies) and is not one of the accepted generator/minibatch
placeholder types; independent data and those placeholder types are never
rejected for that reason. -/
theorem C7_dependent_observed_data_rejected {α : Type} (zeroV : α)
    (dt : SymRV α → Option PyStr) (s : MState α) (rv : SymRV α) (name : PyStr)
    (data : ObsData α) (transform : TransformArg) :
    register_rv zeroV dt s rv name (some data) transform = .error .dependentData ↔
      ∃ vals, data = ObsData.gvar false true vals := by
  constructor
  · intro h
    cases data with
    | dense vals =>
        unfold register_rv at h
        dsimp only at h
        rw [if_neg (by simp)] at h
        exact absurd (make_obs_var_error h) (by simp)
    | masked vals =>
        unfold register_rv at h
        dsimp only at h
        rw [if_neg (by simp)] at h
        exact absurd (make_obs_var_error h) (by simp)
    | gvar special hasOwner vals =>
        unfold register_rv at h
        dsimp only at h
        by_cases hc : (! special && hasOwner) = true
        · have h1 : special = false := by revert hc; cases special <;> simp
          have h2 : hasOwner = true := by revert hc; cases hasOwner <;> simp
          exact ⟨vals, by rw [h1, h2]⟩
        · rw [if_neg hc] at h
          exact absurd (make_obs_var_error h) (by simp)
  · rintro ⟨vals, rfl⟩
    unfold register_rv
    dsimp only
    exact if_pos rfl

/-- C7 witness: dependent graph-variable data is rejected, while a
`Minibatch`-style placeholder with an owner is accepted. -/
theorem C7_dependent_observed_data_rejected_witness :
    register_rv (α := Nat) 0 (fun _ => none) ⟨[], [], [], [], [], [], [], [], []⟩
        ⟨['x'], [1], none⟩ ['x'] (some (.gvar false true [1])) .noTransform =
      .error .dependentData ∧
    register_rv (α := Nat) 0 (fun _ => none) ⟨[], [], [], [], [], [], [], [], []⟩
        ⟨['y'], [1], none⟩ ['y'] (some (.gvar true true [1])) .noTransform ≠
      .error .dependentData :=
  ⟨(C7_dependent_observed_data_rejected _ _ _ _ _ _ _).mpr ⟨[1], rfl⟩,
   fun h => by
     rcases (C7_dependent_observed_data_rejected _ _ _ _ _ _ _).mp h with ⟨vals, hv⟩
     simp at hv⟩

/-- Helper: an unnamed root model adds no prefix. -/
theorem name_for_nil (x : PyStr) : name_for [] x = x := by
  simp [name_for, prefixStr]

/-- The boolean mask of a masked-array observation (`data.mask` in
`make_obs_var`): `true` at masked (missing) entries. -/
def maskOf {α : Type} (vals : List (Option α)) : List Bool :=
  vals.map (fun v => v.isNone)

/-- Indices of the masked entries (`mask.nonzero()` in `make_obs_var`). -/
def missingIdxs {α : Type} (vals : List (Option α)) : List Nat :=
  nonzero (maskOf vals)

/-- Indices of the unmasked entries (`(~mask).nonzero()` in
`make_obs_var`). -/
def observedIdxs {α : Type} (vals : List (Option α)) : List Nat :=
  nonzero ((maskOf vals).map (fun b => ! b))

/-- The recombination tensor built by `make_obs_var`: zeros, with the
missing sub-RV scattered at the masked indices and the observed sub-RV
scattered at the unmasked indices. -/
def detScatter {α : Type} (zeroV : α) (rv : SymRV α) (vals : List (Option α)) : List α :=
  set_subtensor
    (set_subtensor (List.replicate vals.length zeroV) (missingIdxs vals)
      (index_select rv.elems (missingIdxs vals)))
    (observedIdxs vals) (index_select rv.elems (observedIdxs vals))

/-- C4: observing a partially masked array on an unnamed root model (with
the three derived names fresh) registers the masked-index sub-RV as a free
RV named `<name>_missing`, registers the unmasked-index sub-RV as an
observed RV named `<name>_observed` with the non-missing data slice
attached as its observations, registers the recombination as an
auto-generated deterministic under the original name, records the value
variables for both sub-RVs, and emits the non-fatal imputation warning;
moreover the deterministic's value carries the missing sub-RV at the
masked indices and the observed sub-RV at the unmasked indices. -/
theorem C4_missing_data_split {α : Type} (zeroV : α) (dt : SymRV α → Option PyStr)
    (s : MState α) (rv : SymRV α) (name : PyStr) (vals : List (Option α))
    (hroot : s.mname = [])
    (_hm : vals.any (fun v => v.isNone) = true)
    (hu : vals.any (fun v => v.isSome) = true)
    (hlen : rv.elems.length = vals.length)
    (hf1 : s.named_vars.contains (name ++ sufMissing) = false)
    (hf2 : s.named_vars.contains (name ++ sufObserved) = false)
    (hf3 : s.named_vars.contains name = false) :
    register_rv zeroV dt s rv name (some (.masked vals)) .noTransform =
      .ok ({ s with
              free_RVs := s.free_RVs ++
                [⟨name ++ sufMissing, index_select rv.elems (missingIdxs vals), none⟩],
              observed_RVs := s.observed_RVs ++
                [⟨name ++ sufObserved, index_select rv.elems (observedIdxs vals),
                  some (vals.filterMap (fun v => v))⟩],
              auto_deterministics := s.auto_deterministics ++
                [⟨name, detScatter zeroV rv vals, none⟩],
              named_vars := s.named_vars ++ [name ++ sufMissing, name ++ sufObserved, name],
              rvs_to_values :=
                aset (aset s.rvs_to_values (name ++ sufMissing) (name ++ sufMissing))
                  (name ++ sufObserved) (name ++ sufObserved),
              values_to_rvs :=
                aset (aset s.values_to_rvs (name ++ sufMissing) (name ++ sufMissing))
                  (name ++ sufObserved) (name ++ sufObserved),
              warns := s.warns ++ [.imputationWarn] },
            ⟨name, detScatter zeroV rv vals, none⟩) ∧
    (∀ (j i : Nat), (missingIdxs vals)[j]? = some i →
      (detScatter zeroV rv vals)[i]? = (index_select rv.elems (missingIdxs vals))[j]?) ∧
    (∀ (j i : Nat), (observedIdxs vals)[j]? = some i →
      (detScatter zeroV rv vals)[i]? = (index_select rv.elems (observedIdxs vals))[j]?) := by
  have hmaskLen : (maskOf vals).length = vals.length := by simp [maskOf]
  refine ⟨?_, ?_, ?_⟩
  · have m1 : (name ++ sufMissing) ∉ s.named_vars := by simpa using hf1
    have m2 : (name ++ sufObserved) ∉ s.named_vars := by simpa using hf2
    have m3 : name ∉ s.named_vars := by simpa using hf3
    have hAllF : ((vals.map (fun v => v.isNone)).all (fun b => b)) = false := by
      rcases List.any_eq_true.mp hu with ⟨v, hvmem, hvs⟩
      refine List.all_eq_false.mpr ⟨v.isNone, List.mem_map_of_mem _ hvmem, ?_⟩
      cases v
      · simp at hvs
      · simp
    have hne1 : ¬ (name ++ sufObserved = name ++ sufMissing) := by
      simp [sufObserved, sufMissing]
    have hne2 : ¬ (name = name ++ sufMissing) := by
      intro h
      have := congrArg List.length h
      simp [sufMissing] at this
    have hne3 : ¬ (name = name ++ sufObserved) := by
      intro h
      have := congrArg List.length h
      simp [sufObserved] at this
    unfold register_rv make_obs_var register_free_rv create_value_var add_random_variable
    simp only [hroot, name_for_nil]
    simp [hAllF, m1, m2, m3, hne1, hne2, hne3, missingIdxs, observedIdxs, detScatter,
      maskOf, name_for_nil]
  · intro j i hj
    simp only [missingIdxs, observedIdxs, detScatter] at hj ⊢
    have himem : i ∈ nonzero (maskOf vals) := List.getElem?_mem hj
    have hiRange : i < vals.length := by
      have := (mem_nonzero_iff.mp himem).1
      rwa [hmaskLen] at this
    have hiRangeRv : i < rv.elems.length := by rw [hlen]; exact hiRange
    have hrange : ∀ k ∈ nonzero (maskOf vals), k < rv.elems.length := by
      intro k hk
      rw [hlen, ← hmaskLen]
      exact (mem_nonzero_iff.mp hk).1
    obtain ⟨v, hv⟩ : ∃ v, rv.elems[i]? = some v := ⟨_, List.getElem?_eq_getElem hiRangeRv⟩
    have hmj : (index_select rv.elems (nonzero (maskOf vals)))[j]? = some v := by
      rw [index_select_get _ _ j i hj hrange]
      exact hv
    rw [hmj, set_subtensor_get_not_mem _ _ _ i (nonzero_disjoint himem)]
    exact set_subtensor_get_at _ _ _ j i v (nonzero_nodup _) hj hmj (by simpa using hiRange)
  · intro j i hj
    simp only [missingIdxs, observedIdxs, detScatter] at hj ⊢
    have himem : i ∈ nonzero ((maskOf vals).map (fun b => ! b)) := List.getElem?_mem hj
    have hiRange : i < vals.length := by
      have := (mem_nonzero_iff.mp himem).1
      simpa [hmaskLen] using this
    have hiRangeRv : i < rv.elems.length := by rw [hlen]; exact hiRange
    have hrange : ∀ k ∈ nonzero ((maskOf vals).map (fun b => ! b)), k < rv.elems.length := by
      intro k hk
      have := (mem_nonzero_iff.mp hk).1
      rw [hlen]
      simpa [hmaskLen] using this
    obtain ⟨v, hv⟩ : ∃ v, rv.elems[i]? = some v := ⟨_, List.getElem?_eq_getElem hiRangeRv⟩
    have hoj : (index_select rv.elems (nonzero ((maskOf vals).map (fun b => ! b))))[j]? =
        some v := by
      rw [index_select_get _ _ j i hj hrange]
      exact hv
    rw [hoj]
    refine set_subtensor_get_at _ _ _ j i v (nonzero_nodup _) hj hoj ?_
    rw [set_subtensor_length]
    simpa using hiRange

/-- C4 witness: observing the length-3 vector `[5, --, 7]` (one missing
entry) against the RV with element slots `[10, 20, 30]` on an empty root
model yields one free RV `x_missing` of length 1, one observed RV
`x_observed` of length 2 with observations `[5, 7]`, and one auto
deterministic `x` of length 3 scattering both sub-RVs, plus the imputation
warning. -/
theorem C4_missing_data_split_witness :
    register_rv (α := Nat) 0 (fun _ => none)
        ⟨[], [], [], [], [], [], [], [], []⟩ ⟨['x'], [10, 20, 30], none⟩ ['x']
        (some (.masked [some 5, none, some 7])) .noTransform =
      .ok (⟨[],
            [⟨['x', '_', 'm', 'i', 's', 's', 'i', 'n', 'g'], [20], none⟩],
            [⟨['x', '_', 'o', 'b', 's', 'e', 'r', 'v', 'e', 'd'], [10, 30], some [5, 7]⟩],
            [],
            [⟨['x'], [10, 20, 30], none⟩],
            [['x', '_', 'm', 'i', 's', 's', 'i', 'n', 'g'],
             ['x', '_', 'o', 'b', 's', 'e', 'r', 'v', 'e', 'd'], ['x']],
            [(['x', '_', 'm', 'i', 's', 's', 'i', 'n', 'g'],
              ['x', '_', 'm', 'i', 's', 's', 'i', 'n', 'g']),
             (['x', '_', 'o', 'b', 's', 'e', 'r', 'v', 'e', 'd'],
              ['x', '_', 'o', 'b', 's', 'e', 'r', 'v', 'e', 'd'])],
            [(['x', '_', 'm', 'i', 's', 's', 'i', 'n', 'g'],
              ['x', '_', 'm', 'i', 's', 's', 'i', 'n', 'g']),
             (['x', '_', 'o', 'b', 's', 'e', 'r', 'v', 'e', 'd'],
              ['x', '_', 'o', 'b', 's', 'e', 'r', 'v', 'e', 'd'])],
            [.imputationWarn]⟩,
          ⟨['x'], [10, 20, 30], none⟩) :=
  (C4_missing_data_split 0 (fun _ => none) _ _ _ _ rfl (by decide) (by decide) (by decide)
    (by decide) (by decide) (by decide)).1
